import Mathlib

/-!
A verification development for the `rsf` reactive UI library
(`src/rsf.js`, `src/rsf-static.js`).

The JavaScript runtime is shallowly embedded as follows.

* JS primitive values appearing in the library's data flow (state-cell
  values, element content, attribute values) are modelled by `RSF.Lit`.
* The DOM is modelled as a flat store of nodes (`RSF.Node` indexed by
  position in `Machine.nodes`); each node carries its tag, attribute
  list, an optional parent index (`none` = detached), the expando field
  `_rsfRender`, and text payload for text / raw-HTML nodes.  Node `0`
  is the document root; a node is *in the document* iff its parent
  chain reaches node `0` (`inDoc`), which models the scoping of
  `document.querySelectorAll` to live nodes.
* Builder programs (the `r => ...` functions handed to `rsf`) are deep
  embedded as instruction lists (`Instr`); a content argument is either
  a nested builder function (`Content.fn`) or a literal (`Content.lit`),
  matching the `typeof childContent === 'function'` dispatch.
* The mutable traversal cursor (`_currentElement`, `_stack`,
  `_parentElement`) and the per-invocation `stateIdCounter` are
  threaded explicitly through `BState`.
* `document.querySelector(anchor)` is modelled for id selectors
  (`"#x"` matches the first in-document element whose `id` attribute
  is `x`); the anchor-resolution claims only need presence/absence.
* Event listeners (`addEventListener`) mutate no observable modelled
  state and are not recorded; `watch` values that are not state cells
  (spec §7 names them unvalidated) are outside the model.
* Observable effects that the claims mention but that the store does
  not carry (which elements had a rebuild invoked, which debug traces
  were printed) are returned as explicit logs (`rebuilt`, `traces`);
  the source's `State.set` contains no trace emission, so `traces` is
  constantly empty.
-/

namespace RSF

/-- JS primitive values flowing through the library. -/
inductive Lit where
  | str : String → Lit
  | num : Int → Lit
  | bool : Bool → Lit
  | null : Lit
deriving DecidableEq, Repr

/-- JS `String(v)` coercion for the modelled primitives. -/
def Lit.toJSString : Lit → String
  | .str s => s
  | .num n => toString n
  | .bool b => if b then "true" else "false"
  | .null => "null"

/-- JS truthiness of the modelled primitives. -/
def Lit.truthy : Lit → Bool
  | .str s => !(s == "")
  | .num n => !(n == 0)
  | .bool b => b
  | .null => false

/-- The `booleanAttributes` whitelist, rsf.js lines 13-17. -/
def booleanAttributes : List String :=
  ["checked", "disabled", "required", "readonly", "selected",
   "multiple", "hidden", "open", "novalidate", "autoplay",
   "controls", "default", "reversed", "async", "defer"]

/-- The standard tag-name list, rsf.js lines 19-31. -/
def tags : List String :=
  ["address", "article", "aside", "footer", "header", "h1", "h2", "h3", "h4", "h5", "h6", "main", "nav", "section",
   "blockquote", "dd", "div", "dl", "dt", "figcaption", "figure", "hr", "li", "ol", "p", "pre", "ul",
   "a", "abbr", "b", "bdi", "bdo", "br", "cite", "code", "data", "dfn", "em", "i", "kbd", "mark",
   "q", "rp", "rt", "ruby", "s", "samp", "small", "span", "strong", "sub", "sup", "time", "u", "var",
   "img", "audio", "video", "track",
   "table", "caption", "col", "colgroup", "tbody", "td", "tfoot", "th", "thead", "tr",
   "button", "datalist", "fieldset", "form", "input", "label", "legend", "meter", "optgroup", "option",
   "output", "progress", "select", "textarea",
   "canvas",
   "svg", "circle", "rect", "text", "path",
   "iframe"]

/-- The event-name list, rsf.js lines 33-38. -/
def events : List String :=
  ["click", "dblclick", "mousedown", "mouseup", "mouseover", "mouseout", "mousemove",
   "keydown", "keyup", "keypress", "focus", "blur", "change", "submit", "input",
   "touchstart", "touchend", "touchmove",
   "drag", "dragstart", "dragend", "dragover", "dragenter", "dragleave", "drop"]

/-- `camelToKebab`, rsf.js line 136: every upper-case letter is replaced
by a dash followed by its lower-case form. -/
def camelToKebab (s : String) : String :=
  String.mk (s.data.flatMap (fun c => if c.isUpper then ['-', c.toLower] else [c]))

/-- A property-map value in a builder call. -/
inductive PropVal where
  | lit : Lit → PropVal
  | func : PropVal
  | watchOne : Nat → PropVal
  | watchMany : List Nat → PropVal
  | styleObj : List (String × String) → PropVal
deriving DecidableEq, Repr

mutual
/-- A deep-embedded builder instruction: one call made on the builder
handle `r`.  `elemI tag props content` models `r.elem(tag, props,
content)`; `textI v` models `r.text(v)`. -/
inductive Instr where
  | elemI : String → List (String × PropVal) → Option Content → Instr
  | textI : Lit → Instr
deriving Repr

/-- The `content` argument of `elem`: either a child-producing function
(deep-embedded as its body) or a literal value.  The same type models
the value stored in `element._rsfRender`. -/
inductive Content where
  | fn : List Instr → Content
  | lit : Lit → Content
deriving Repr
end

/-- Kind of a DOM node: an element, a text node (created by `r.text`
or by assigning `textContent`), or the raw-markup payload assigned by
`innerHTML` when `props.html === true`. -/
inductive NKind where
  | element
  | textNode
  | rawHtml
deriving DecidableEq, Repr

/-- A DOM node in the flat store.  `parent = none` means detached from
any parent (removed from the tree); `rsfRender` is the expando
`element._rsfRender`; `txt` is the payload of text / raw-HTML nodes. -/
structure Node where
  kind : NKind
  tag : String := ""
  attrs : List (String × String) := []
  parent : Option Nat := none
  rsfRender : Option Content := none
  txt : String := ""

/-- A reactive state cell (`class State`, rsf.js lines 40-90).
`compare` defaults to `(a, b) => a === b`; `stateId` is the
`_stateId` expando, assigned lazily on first watch registration. -/
structure State where
  value : Lit
  compare : Lit → Lit → Bool := fun a b => a == b
  debug : Bool := false
  stateId : Option String := none

/-- The machine state: the cell store and the DOM node store.
Node `0` is the document root. -/
structure Machine where
  cells : List State
  nodes : List Node

/-- `getAttribute`. -/
def getAttr (attrs : List (String × String)) (k : String) : Option String :=
  (attrs.find? (fun kv => kv.1 == k)).map (fun kv => kv.2)

/-- `setAttribute`: replaces the binding if present, else appends it. -/
def setAttr (attrs : List (String × String)) (k v : String) : List (String × String) :=
  if attrs.any (fun kv => kv.1 == k) then
    attrs.map (fun kv => if kv.1 == k then (k, v) else kv)
  else attrs ++ [(k, v)]

/-- `removeAttribute`. -/
def removeAttr (attrs : List (String × String)) (k : String) : List (String × String) :=
  attrs.filter (fun kv => !(kv.1 == k))

/-- Update the cell at index `i`. -/
def updCell (cs : List State) (i : Nat) (f : State → State) : List State :=
  match cs.get? i with
  | some c => cs.set i (f c)
  | none => cs

/-- `element.innerHTML = ''` on element `e`: every direct child of `e`
is detached (its whole former subtree thereby leaves the document,
since membership is reachability from the root). -/
def clearChildren (ns : List Node) (e : Nat) : List Node :=
  ns.map (fun n => if n.parent == some e then { n with parent := none } else n)

/-- Does the parent chain of node `i` reach the document root (node 0)
within `fuel` steps?  Parents always have smaller indices than their
children (children are appended after their parents exist), so
`fuel = ns.length + 1` is always enough. -/
def reachRoot (ns : List Node) : Nat → Nat → Bool
  | 0, _ => false
  | fuel + 1, i =>
    if i == 0 then true
    else
      match ns.get? i with
      | some n =>
        match n.parent with
        | some p => reachRoot ns fuel p
        | none => false
      | none => false

/-- Node `i` is in the document (reachable from the root). -/
def inDoc (ns : List Node) (i : Nat) : Bool :=
  reachRoot ns (ns.length + 1) i

/-- `document.querySelector(sel)` restricted to id selectors: the first
in-document element whose `id` attribute `x` satisfies `sel = "#x"`. -/
def querySelector (ns : List Node) (sel : String) : Option Nat :=
  (List.range ns.length).find? (fun i =>
    match ns.get? i with
    | some n =>
      n.kind == NKind.element && inDoc ns i &&
        (sel == "#" ++ (getAttr n.attrs "id").getD "")
    | none => false)

/-- The builder-handle state threaded through builder calls:
the machine, the invocation-local `stateIdCounter`, `_currentElement`,
`_stack`, and the (write-only) `_parentElement`. -/
structure BState where
  m : Machine
  counter : Nat
  cur : Nat
  stack : List Nat
  parentEl : Option Nat := none

/-- JS falsiness of an `_stateId` value (`undefined` or `""`),
used by `if (!state._stateId)`. -/
def idFalsy : Option String → Bool
  | none => true
  | some s => s == ""

/-- rsf.js lines 121-125: walk the watch array and give every cell
whose `_stateId` is falsy a fresh id built from the shared counter. -/
def assignIds (cs : List State) (counter : Nat) : List Nat → List State × Nat
  | [] => (cs, counter)
  | ci :: rest =>
    match cs.get? ci with
    | some c =>
      if idFalsy c.stateId then
        assignIds (cs.set ci { c with stateId := some ("state-" ++ toString counter) })
          (counter + 1) rest
      else assignIds cs counter rest
    | none => assignIds cs counter rest

/-- `if (props.watch)` normalization, rsf.js line 118: a single cell is
wrapped in a one-element array; an array is used as is.  Falsy `watch`
values skip the branch (`none` here); truthy non-cell values are
outside the model (spec §7: unvalidated, failing downstream). -/
def normalizeWatch : PropVal → Option (List Nat)
  | .watchOne c => some [c]
  | .watchMany cs => some cs
  | _ => none

/-- String coercion of a property value when it is used where JS would
coerce it (attribute assignment). -/
def PropVal.attrString : PropVal → String
  | .lit v => v.toJSString
  | .func => "function"
  | .watchOne _ => "[object Object]"
  | .watchMany _ => ""
  | .styleObj _ => "[object Object]"

/-- Rendering of a style object's entries as serialized CSS text. -/
def styleJoin (kvs : List (String × String)) : String :=
  String.intercalate "; " (kvs.map (fun kv => camelToKebab kv.1 ++ ": " ++ kv.2))

/-- One iteration of the property loop, rsf.js lines 138-165:
`class` assigns the class; `style` assigns style text (object or
string); event-name keys bind listeners (no attribute mutation);
boolean-whitelist keys set the bare attribute only on exactly `true`
and remove it only on exactly `false`; all other keys set a generic
kebab-cased attribute with the string-coerced value. -/
def applyProp (n : Node) (kv : String × PropVal) : Node :=
  let key := kv.1
  let value := kv.2
  let attr := camelToKebab key
  if key == "class" then
    { n with attrs := setAttr n.attrs "class" value.attrString }
  else if key == "style" then
    match value with
    | .styleObj kvs => { n with attrs := setAttr n.attrs "style" (styleJoin kvs) }
    | _ => { n with attrs := setAttr n.attrs "style" value.attrString }
  else if events.contains attr then
    n
  else if booleanAttributes.contains attr then
    if value == .lit (.bool true) then { n with attrs := setAttr n.attrs attr "" }
    else if value == .lit (.bool false) then { n with attrs := removeAttr n.attrs attr }
    else n
  else
    { n with attrs := setAttr n.attrs attr value.attrString }

/-- `props.html === true`. -/
def htmlFlag (props : List (String × PropVal)) : Bool :=
  (props.find? (fun kv => kv.1 == "html")).map (fun kv => kv.2) ==
    some (PropVal.lit (.bool true))

/-- The part of `elem` before `appendChild` (rsf.js lines 113-165):
create the raw element, run the watch branch (id assignment, the
`data-rsf-watching` attribute, storing `_rsfRender`, deleting
`props.watch`), then apply the remaining properties.  Returns the
updated cell store and counter, the prepared node, and nothing else —
the caller appends the node. -/
def elemPrepare (cs : List State) (counter : Nat) (tag : String)
    (props : List (String × PropVal)) (content : Option Content) :
    List State × Nat × Node :=
  let n0 : Node := { kind := .element, tag := tag }
  let step1 : List State × Nat × Node × List (String × PropVal) :=
    match (props.find? (fun kv => kv.1 == "watch")).map (fun kv => kv.2) with
    | some pv =>
      match normalizeWatch pv with
      | some cis =>
        let ac := assignIds cs counter cis
        let ids := cis.map (fun ci => (((ac.1.get? ci).bind (fun c => c.stateId)).getD ""))
        let n1 := { n0 with
          attrs := setAttr n0.attrs "data-rsf-watching" (String.intercalate "," ids),
          rsfRender := content }
        (ac.1, ac.2, n1, props.filter (fun kv => !(kv.1 == "watch")))
      | none => (cs, counter, n0, props)
    | none => (cs, counter, n0, props)
  (step1.1, step1.2.1, step1.2.2.2.foldl applyProp step1.2.2.1)

/-- The state after rsf.js lines 113-167: the prepared element has
been appended to `_currentElement`, the shared counter and cell store
reflect any watch-id assignment; the cursor is not yet moved. -/
def elemAppend (st : BState) (tag : String) (props : List (String × PropVal))
    (content : Option Content) : BState :=
  let pr := elemPrepare st.m.cells st.counter tag props content
  { st with
    m := { cells := pr.1, nodes := st.m.nodes ++ [{ pr.2.2 with parent := some st.cur }] },
    counter := pr.2.1 }

mutual
/-- `r.elem(tag, props, content)`, rsf.js lines 112-187: prepare the
element, append it to `_currentElement`, then handle content — a
function pushes the cursor, makes the new element current, runs the
body and pops back; a literal is string-coerced into `textContent`
(or `innerHTML` when `props.html === true`). -/
def elem (st : BState) (tag : String) (props : List (String × PropVal))
    (content : Option Content) : BState :=
  let st1 := elemAppend st tag props content
  match content with
  | some (.fn body) =>
    let st2 := { st1 with stack := st1.stack ++ [st1.cur], cur := st.m.nodes.length,
                          parentEl := some st1.cur }
    let st3 := runProg st2 body
    let newStack := st3.stack.dropLast
    { st3 with cur := (st3.stack.getLast?).getD 0, stack := newStack,
               parentEl := newStack.getLast? }
  | some (.lit v) =>
    let s := v.toJSString
    let child : Node :=
      if htmlFlag props then { kind := .rawHtml, txt := s, parent := some st.m.nodes.length }
      else { kind := .textNode, txt := s, parent := some st.m.nodes.length }
    { st1 with m := { st1.m with nodes := st1.m.nodes ++ [child] } }
  | none => st1

/-- Execute one builder call. -/
def runInstr (st : BState) : Instr → BState
  | .elemI tag props content => elem st tag props content
  | .textI v =>
    { st with m := { st.m with
        nodes := st.m.nodes ++ [{ kind := .textNode, txt := v.toJSString,
                                  parent := some st.cur }] } }

/-- Execute a builder function's body (its sequence of builder calls). -/
def runProg (st : BState) : List Instr → BState
  | [] => st
  | i :: rest => runProg (runInstr st i) rest
end

/-- Character-list worker for `splitComma`. -/
def splitCommaAux : List Char → List String
  | [] => [""]
  | c :: rest =>
    let r := splitCommaAux rest
    if c == ',' then "" :: r
    else
      match r with
      | h :: t => String.mk (c :: h.data) :: t
      | [] => [String.mk [c]]

/-- JS `s.split(',')` (single-character separator): the empty string
splits to `[""]`, and separators delimit possibly empty fields. -/
def splitComma (s : String) : List String :=
  splitCommaAux s.data

/-- The error raised when a notification invokes a stored rebuild value
that is not callable (`renderFn(tempR)` on a non-function throws). -/
inductive RErr where
  | notCallable
deriving DecidableEq, Repr

/-- Result of a notification pass: the machine, the invocation counter,
the ids of the elements whose clear-and-rebuild was entered (in visit
order), and the error that aborted the pass, if any. -/
structure NotifyRes where
  m : Machine
  counter : Nat
  rebuilt : List Nat
  err : Option RErr

/-- The static snapshot taken by
`document.querySelectorAll('[data-rsf-watching]')`: ids of in-document
elements bearing the attribute. -/
def snapshot (m : Machine) : List Nat :=
  (List.range m.nodes.length).filter (fun i =>
    match m.nodes.get? i with
    | some n =>
      n.kind == NKind.element && ((getAttr n.attrs "data-rsf-watching").isSome : Bool)
        && inDoc m.nodes i
    | none => false)

/-- The `forEach` body of `notifyElements`, rsf.js lines 77-88: for
each snapshot element whose split `data-rsf-watching` list contains
the cell's id, read `_rsfRender`; if truthy, clear the element's
children and invoke it with a fresh handle whose current element is
the watcher.  A stored non-callable truthy value throws right after
the clear, aborting the pass. -/
def notifyPass (m : Machine) (counter : Nat) (sid : String) : List Nat → NotifyRes
  | [] => ⟨m, counter, [], none⟩
  | e :: rest =>
    match m.nodes.get? e with
    | none => notifyPass m counter sid rest
    | some n =>
      let watching := splitComma ((getAttr n.attrs "data-rsf-watching").getD "")
      if watching.contains sid then
        match n.rsfRender with
        | some (.fn body) =>
          let m1 : Machine := { m with nodes := clearChildren m.nodes e }
          let st := runProg { m := m1, counter := counter, cur := e, stack := [],
                              parentEl := none } body
          let res := notifyPass st.m st.counter sid rest
          ⟨res.m, res.counter, e :: res.rebuilt, res.err⟩
        | some (.lit v) =>
          if v.truthy then
            ⟨{ m with nodes := clearChildren m.nodes e }, counter, [e],
              some .notCallable⟩
          else notifyPass m counter sid rest
        | none => notifyPass m counter sid rest
      else notifyPass m counter sid rest

/-- `State.prototype.notifyElements`, rsf.js lines 75-89.  A cell with
no assigned `_stateId` matches no element (the split attribute lists
contain only strings). -/
def notifyElements (m : Machine) (counter : Nat) (ci : Nat) : NotifyRes :=
  match (m.cells.get? ci).bind (fun c => c.stateId) with
  | some sid => notifyPass m counter sid (snapshot m)
  | none => ⟨m, counter, [], none⟩

/-- Result of `State.set`: the machine, the counter, the rebuild log,
the error if the notification threw, and the debug traces printed
during the call.  The source's `set` (rsf.js lines 51-56) contains no
trace emission — the `_debug` flag stored by the constructor is never
read — so `traces` is always empty. -/
structure SetRes where
  m : Machine
  counter : Nat
  rebuilt : List Nat
  err : Option RErr
  traces : List (Lit × Lit)

/-- `State.prototype.set(newValue, force)`, rsf.js lines 51-56:
if `!compare(current, newValue) || force`, store the new value and run
`notifyElements` synchronously; otherwise do nothing. -/
def set (m : Machine) (counter : Nat) (ci : Nat) (newValue : Lit) (force : Bool) :
    SetRes :=
  match m.cells.get? ci with
  | none => ⟨m, counter, [], none, []⟩
  | some c =>
    if !(c.compare c.value newValue) || force then
      let m1 : Machine :=
        { m with cells := updCell m.cells ci (fun c0 => { c0 with value := newValue }) }
      let res := notifyElements m1 counter ci
      ⟨res.m, res.counter, res.rebuilt, res.err, []⟩
    else ⟨m, counter, [], none, []⟩

/-- One `rsf(anchor, child)` invocation (rsf.js lines 103-110 and
195-200 via line 229): resolve the anchor (raising when it is absent —
modelled as an error value returned with the untouched machine), clear
the anchor's children, and run the builder with a fresh invocation
counter and the anchor as the initial current element.  Returns the
machine, the invocation's final counter, and the error, if any. -/
def render (m : Machine) (anchor : String) (child : List Instr) :
    Machine × Nat × Option String :=
  match querySelector m.nodes anchor with
  | none => (m, 0, some ("RSF: Cannot find anchor element \"" ++ anchor ++ "\""))
  | some root =>
    let m1 : Machine := { m with nodes := clearChildren m.nodes root }
    let st := runProg { m := m1, counter := 0, cur := root, stack := [],
                        parentEl := none } child
    (st.m, st.counter, none)

/-- The possible shapes of the first argument of a tag-shorthand call. -/
inductive ShArg where
  | strA : String → ShArg
  | numA : Int → ShArg
  | boolA : Bool → ShArg
  | fnA : List Instr → ShArg
  | propsA : List (String × PropVal) → ShArg
  | noneA : ShArg

/-- The second (content) argument of a two-argument shorthand call. -/
inductive ContentArg where
  | litC : Lit → ContentArg
  | fnC : List Instr → ContentArg

/-- The tag-shorthand wrapper, rsf.js lines 207-213: a first argument
of string or function type becomes the content of an otherwise
property-less `elem` call (any second argument is dropped); every
other first argument is used as the property map (`propsOrContent ||
{}`; a number or boolean in that position has no enumerable entries,
so both the truthy and the falsy case contribute an empty map). -/
def shorthand (tag : String) (a : ShArg) (c : Option ContentArg) : Instr :=
  match a with
  | .strA s => .elemI tag [] (some (.lit (.str s)))
  | .fnA body => .elemI tag [] (some (.fn body))
  | _ =>
    let ps : List (String × PropVal) :=
      match a with
      | .propsA ps => ps
      | _ => []
    match c with
    | some (.litC v) => .elemI tag ps (some (.lit v))
    | some (.fnC body) => .elemI tag ps (some (.fn body))
    | none => .elemI tag ps none

/-- Which tag names receive a shorthand method (rsf.js lines 203-205:
every whitelisted tag except `text`, which would shadow `r.text`). -/
def hasShorthand (tag : String) : Bool :=
  tags.contains tag && !(tag == "text")

/-! ## The static HTML generator (`src/rsf-static.js`)

`createStatic` shares the builder-call shapes with the reactive
runtime, so it is modelled over the same `Instr`/`Content`/`PropVal`
types.  Its only state is the local string `html`, grown by `html +=`;
that accumulator is threaded explicitly. -/

namespace Static

/-- The void-element list, rsf-static.js line 52. -/
def selfClosingTags : List String :=
  ["area", "base", "br", "col", "embed", "hr", "img", "input", "link",
   "meta", "param", "source", "track", "wbr"]

/-- `escapeHtml`, rsf-static.js lines 58-65.  The source applies five
global replaces in the order `&`, `<`, `>`, `"`, `'`; the first pass
consumes every pre-existing `&` and no later pass's target occurs in
an earlier pass's replacement text, so the sequence equals this single
character-wise pass. -/
def escapeHtml (s : String) : String :=
  String.mk (s.data.flatMap (fun ch =>
    if ch == '&' then "&amp;".data
    else if ch == '<' then "&lt;".data
    else if ch == '>' then "&gt;".data
    else if ch == '"' then "&quot;".data
    else if ch == '\'' then "&#039;".data
    else [ch]))

/-- One iteration of the attribute loop, rsf-static.js lines 73-97:
the fragment appended to `attrs` for one property.  `watch` and
`html` are skipped; `style` serializes objects or escapes strings;
boolean-whitelist attributes appear bare and only on exactly `true`;
function values (event handlers) produce nothing; everything else
becomes an escaped generic attribute. -/
def attrPiece (kv : String × PropVal) : String :=
  let key := kv.1
  let value := kv.2
  if key == "watch" || key == "html" then ""
  else
    let attr := camelToKebab key
    if key == "style" then
      match value with
      | .styleObj kvs => " style=\"" ++ styleJoin kvs ++ "\""
      | _ => " style=\"" ++ escapeHtml value.attrString ++ "\""
    else if booleanAttributes.contains attr then
      if value == .lit (.bool true) then " " ++ attr else ""
    else
      match value with
      | .func => ""
      | _ => " " ++ attr ++ "=\"" ++ escapeHtml value.attrString ++ "\""

/-- The whole attribute string of one element. -/
def stAttrs (props : List (String × PropVal)) : String :=
  props.foldl (fun acc kv => acc ++ attrPiece kv) ""

mutual
/-- `r.elem` of the static generator (rsf-static.js lines 68-117),
acting on the accumulated output `acc`: append the opening tag with
its attribute string, then the content (children, raw markup when
`props.html === true`, or escaped text), then the closing tag unless
the tag is self-closing. -/
def stInstr (acc : String) : Instr → String
  | .textI v => acc ++ escapeHtml v.toJSString
  | .elemI tag props content =>
    let s0 := acc ++ "<" ++ tag ++ stAttrs props ++ ">"
    let s1 :=
      match content with
      | some (.fn body) => stProg s0 body
      | some (.lit v) =>
        if htmlFlag props then s0 ++ v.toJSString else s0 ++ escapeHtml v.toJSString
      | none => s0
    if selfClosingTags.contains tag then s1 else s1 ++ "</" ++ tag ++ ">"

/-- Run a builder body against the accumulator. -/
def stProg (acc : String) : List Instr → String
  | [] => acc
  | i :: rest => stProg (stInstr acc i) rest
end

/-- `createStatic(renderFn)`, rsf-static.js lines 30-142: run the
builder against a fresh empty accumulator and return the result. -/
def createStatic (renderFn : List Instr) : String :=
  stProg "" renderFn

end Static

/-! ## Helper lemmas -/

/-- Appending extensions compose. -/
theorem exists_append_trans {α : Type} {l1 l2 l3 : List α}
    (h1 : ∃ s, l2 = l1 ++ s) (h2 : ∃ t, l3 = l2 ++ t) : ∃ u, l3 = l1 ++ u := by
  obtain ⟨s, hs⟩ := h1
  obtain ⟨t, ht⟩ := h2
  exact ⟨s ++ t, by rw [ht, hs, List.append_assoc]⟩

/-- `elemAppend` leaves the cursor and the stack untouched. -/
theorem elemAppend_cursor (st : BState) (tag : String) (props : List (String × PropVal))
    (c : Option Content) :
    (elemAppend st tag props c).cur = st.cur ∧ (elemAppend st tag props c).stack = st.stack :=
  ⟨rfl, rfl⟩

/-- `elemAppend` appends exactly the prepared element. -/
theorem elemAppend_nodes (st : BState) (tag : String) (props : List (String × PropVal))
    (c : Option Content) :
    (elemAppend st tag props c).m.nodes =
      st.m.nodes ++ [{ (elemPrepare st.m.cells st.counter tag props c).2.2 with
                       parent := some st.cur }] :=
  rfl

mutual
/-- `elem` restores `_currentElement` and `_stack` to their values at
entry, whatever the content does. -/
theorem elem_cursor (st : BState) (tag : String) (props : List (String × PropVal))
    (c : Option Content) :
    (elem st tag props c).cur = st.cur ∧ (elem st tag props c).stack = st.stack := by
  match c with
  | some (.fn body) =>
    have h := runProg_cursor
      { elemAppend st tag props (some (.fn body)) with
        stack := (elemAppend st tag props (some (.fn body))).stack ++
          [(elemAppend st tag props (some (.fn body))).cur],
        cur := st.m.nodes.length,
        parentEl := some (elemAppend st tag props (some (.fn body))).cur } body
    simp only [elem]
    rw [h.2]
    simp [elemAppend]
  | some (.lit v) => simp [elem, elemAppend]
  | none => simp [elem, elemAppend]

/-- A single builder call restores the cursor and the stack. -/
theorem runInstr_cursor (st : BState) (i : Instr) :
    (runInstr st i).cur = st.cur ∧ (runInstr st i).stack = st.stack := by
  match i with
  | .elemI tag props c => exact elem_cursor st tag props c
  | .textI v => simp [runInstr]

/-- A builder body restores the cursor and the stack. -/
theorem runProg_cursor (st : BState) (p : List Instr) :
    (runProg st p).cur = st.cur ∧ (runProg st p).stack = st.stack := by
  match p with
  | [] => simp [runProg]
  | i :: rest =>
    have h1 := runInstr_cursor st i
    have h2 := runProg_cursor (runInstr st i) rest
    simp only [runProg]
    rw [h2.1, h2.2, h1.1, h1.2]
    exact ⟨rfl, rfl⟩
end

mutual
/-- `elem` only appends to the node store. -/
theorem elem_nodes_extend (st : BState) (tag : String) (props : List (String × PropVal))
    (c : Option Content) :
    ∃ t, (elem st tag props c).m.nodes = st.m.nodes ++ t := by
  match c with
  | some (.fn body) =>
    obtain ⟨t, ht⟩ := runProg_nodes_extend
      { elemAppend st tag props (some (.fn body)) with
        stack := (elemAppend st tag props (some (.fn body))).stack ++
          [(elemAppend st tag props (some (.fn body))).cur],
        cur := st.m.nodes.length,
        parentEl := some (elemAppend st tag props (some (.fn body))).cur } body
    refine exists_append_trans
      (⟨[{ (elemPrepare st.m.cells st.counter tag props (some (.fn body))).2.2 with
           parent := some st.cur }], rfl⟩ :
        ∃ s, (elemAppend st tag props (some (.fn body))).m.nodes = st.m.nodes ++ s) ?_
    exact ⟨t, by simp only [elem]; exact ht⟩
  | some (.lit v) =>
    refine exists_append_trans
      (⟨[{ (elemPrepare st.m.cells st.counter tag props (some (.lit v))).2.2 with
           parent := some st.cur }], rfl⟩ :
        ∃ s, (elemAppend st tag props (some (.lit v))).m.nodes = st.m.nodes ++ s) ?_
    exact ⟨_, rfl⟩
  | none => exact ⟨_, rfl⟩

/-- A single builder call only appends to the node store. -/
theorem runInstr_nodes_extend (st : BState) (i : Instr) :
    ∃ t, (runInstr st i).m.nodes = st.m.nodes ++ t := by
  match i with
  | .elemI tag props c => exact elem_nodes_extend st tag props c
  | .textI v => exact ⟨_, rfl⟩

/-- A builder body only appends to the node store. -/
theorem runProg_nodes_extend (st : BState) (p : List Instr) :
    ∃ t, (runProg st p).m.nodes = st.m.nodes ++ t := by
  match p with
  | [] => exact ⟨[], (List.append_nil _).symm⟩
  | i :: rest =>
    obtain ⟨t1, h1⟩ := runInstr_nodes_extend st i
    obtain ⟨t2, h2⟩ := runProg_nodes_extend (runInstr st i) rest
    refine ⟨t1 ++ t2, ?_⟩
    simp only [runProg]
    rw [h2, h1, List.append_assoc]
end

/-- Pre-existing node records are untouched by a builder body. -/
theorem runProg_get?_frame (st : BState) (p : List Instr) (i : Nat)
    (h : i < st.m.nodes.length) :
    (runProg st p).m.nodes.get? i = st.m.nodes.get? i := by
  obtain ⟨t, ht⟩ := runProg_nodes_extend st p
  rw [ht, List.get?_append h]

/-- A builder body never shrinks the node store. -/
theorem runProg_length_le (st : BState) (p : List Instr) :
    st.m.nodes.length ≤ (runProg st p).m.nodes.length := by
  obtain ⟨t, ht⟩ := runProg_nodes_extend st p
  rw [ht, List.length_append]
  exact Nat.le_add_right _ _

/-- Pointwise description of `clearChildren`. -/
theorem clearChildren_get? (ns : List Node) (e i : Nat) :
    (clearChildren ns e).get? i =
      (ns.get? i).map (fun n => if n.parent == some e then { n with parent := none } else n) := by
  simp [clearChildren, List.get?_map]

/-- `clearChildren` preserves the store's length. -/
theorem clearChildren_length (ns : List Node) (e : Nat) :
    (clearChildren ns e).length = ns.length := by
  simp [clearChildren]

/-- `elem` with no content argument stops after the append step. -/
theorem elem_none (st : BState) (tag : String) (props : List (String × PropVal)) :
    elem st tag props none = elemAppend st tag props none :=
  rfl

/-! ## Demo fixtures used by concrete witnesses -/

/-- The document root (node 0). -/
def body0 : Node := { kind := .element, tag := "body" }

/-- An in-document anchor element with `id="app"`. -/
def appAnchor : Node := { kind := .element, tag := "div", attrs := [("id", "app")], parent := some 0 }

/-- A second in-document anchor element with `id="app2"`. -/
def app2Anchor : Node := { kind := .element, tag := "div", attrs := [("id", "app2")], parent := some 0 }

/-! ## Claim theorems -/

/-- C3: `elem` with a child-producing content function pushes the
current insertion parent, makes the new element the insertion parent
for the duration of the content function, and pops back when it
returns — the first conjunct says every builder body (hence every
nesting depth, including recursive helpers receiving the handle)
restores `_currentElement` and `_stack` exactly; the second says the
next sibling built after a nested child-producing call is appended to
the original parent, not to any element created inside the call. -/
theorem C3_cursor_push_pop :
    (∀ (st : BState) (p : List Instr),
      (runProg st p).cur = st.cur ∧ (runProg st p).stack = st.stack) ∧
    (∀ (st : BState) (tag1 : String) (props1 : List (String × PropVal)) (body : List Instr)
        (tag2 : String) (props2 : List (String × PropVal)),
      ((runInstr (runInstr st (.elemI tag1 props1 (some (.fn body))))
          (.elemI tag2 props2 none)).m.nodes.get?
        (runInstr st (.elemI tag1 props1 (some (.fn body)))).m.nodes.length).map
          (fun n => n.parent) = some (some st.cur)) := by
  constructor
  · exact runProg_cursor
  · intro st tag1 props1 body tag2 props2
    have hcur := (runInstr_cursor st (.elemI tag1 props1 (some (.fn body)))).1
    conv_lhs => rw [runInstr, elem_none, elemAppend_nodes]
    rw [List.get?_concat_length]
    simp [hcur]

/-- C4: a `render` whose anchor selector resolves to no element
reports the missing-anchor error with the machine — and in particular
the document — exactly as it was, for every builder function (which is
therefore never invoked). -/
theorem C4_anchor_missing (m : Machine) (anchor : String) (child : List Instr)
    (h : querySelector m.nodes anchor = none) :
    render m anchor child =
      (m, 0, some ("RSF: Cannot find anchor element \"" ++ anchor ++ "\"")) := by
  simp [render, h]

/-- C4 witness: a concrete document with no element matching
`#missing`. -/
theorem C4_anchor_missing_witness :
    querySelector (Machine.mk [] [body0, appAnchor]).nodes "#missing" = none ∧
    render (Machine.mk [] [body0, appAnchor]) "#missing" [.textI (.str "x")] =
      (Machine.mk [] [body0, appAnchor], 0,
        some "RSF: Cannot find anchor element \"#missing\"") :=
  ⟨rfl, C4_anchor_missing (Machine.mk [] [body0, appAnchor]) "#missing" [.textI (.str "x")] rfl⟩

/-- A builder state over an otherwise empty document, used by concrete
counterexamples. -/
def plainSt : BState :=
  { m := { cells := [], nodes := [body0] }, counter := 0, cur := 0, stack := [] }

/-- C5 counterexample: the claim says a boolean-whitelisted key whose
value is neither `true` nor `false` is handled as a generic attribute,
so `checked: "false"` would put `checked="false"` on the element.  The
builder instead leaves the attribute entirely absent: the whitelist
branch is taken and its two inner comparisons both fail, doing
nothing. -/
theorem C5_boolean_attribute_counterexample :
    ((runProg plainSt [.elemI "input" [("checked", PropVal.lit (.str "false"))] none]).m.nodes.get?
        1).map (fun n => getAttr n.attrs "checked") = some none ∧
    ¬(((runProg plainSt
          [.elemI "input" [("checked", PropVal.lit (.str "false"))] none]).m.nodes.get?
        1).map (fun n => getAttr n.attrs "checked") = some (some "false")) :=
  ⟨rfl, by decide⟩

/-- C5 amended: for a boolean-whitelisted key, the attribute is set
bare exactly on the value `true` and removed exactly on the value
`false`; every other value leaves the element unchanged — the key is
ignored, not written as a generic attribute. -/
theorem C5_boolean_attribute_rule (n : Node) (k : String) (v : PropVal)
    (hb : booleanAttributes.contains (camelToKebab k) = true)
    (hc : (k == "class") = false) (hs : (k == "style") = false)
    (he : events.contains (camelToKebab k) = false) :
    applyProp n (k, v) =
      (if v == .lit (.bool true) then
        { n with attrs := setAttr n.attrs (camelToKebab k) "" }
      else if v == .lit (.bool false) then
        { n with attrs := removeAttr n.attrs (camelToKebab k) }
      else n) := by
  have hb' : camelToKebab k ∈ booleanAttributes := by simpa using hb
  have he' : camelToKebab k ∉ events := by simpa using he
  unfold applyProp
  simp [hc, hs, hb', he']

/-- C5 witness: the rule applied at `checked: "false"` on a concrete
element — no attribute is written. -/
theorem C5_boolean_attribute_rule_witness :
    booleanAttributes.contains (camelToKebab "checked") = true ∧
    applyProp { kind := .element, tag := "input" } ("checked", PropVal.lit (.str "false")) =
      { kind := .element, tag := "input" } :=
  ⟨rfl, (C5_boolean_attribute_rule { kind := .element, tag := "input" } "checked"
      (PropVal.lit (.str "false")) rfl rfl rfl rfl).trans rfl⟩

/-- C6 counterexample: calling the whitelisted `div` shorthand with
the single number argument `5` creates an element with no attributes
and no text child at all — not an element whose text content is
`"5"` as the claim states. -/
theorem C6_number_content_counterexample :
    hasShorthand "div" = true ∧
    (runInstr plainSt (shorthand "div" (.numA 5) none)).m.nodes =
      [body0, { kind := .element, tag := "div", parent := some 0 }] ∧
    (runInstr plainSt (shorthand "div" (.numA 5) none)).m.nodes.all
      (fun n => !(n.kind == NKind.textNode) && (n.txt == "")) = true :=
  ⟨rfl, rfl, rfl⟩

/-- C6 amended: a single number argument is not routed to the content
position (only strings and functions are); it lands in the props
parameter, and since a number has no enumerable entries the call is
equivalent to `elem(tag, {}, undefined)`: the element is created with
no attributes, no text content, and no cell-store effect. -/
theorem C6_number_shorthand (st : BState) (tag : String) (i : Int) :
    shorthand tag (.numA i) none = Instr.elemI tag [] none ∧
    (runInstr st (shorthand tag (.numA i) none)).m.nodes =
      st.m.nodes ++ [{ kind := .element, tag := tag, parent := some st.cur }] ∧
    (runInstr st (shorthand tag (.numA i) none)).m.cells = st.m.cells :=
  ⟨rfl, rfl, rfl⟩

/-- C7 (code bug): `State.set` emits no old-to-new trace whatsoever —
the `_debug` flag stored by the constructor is never read — although
the claim (and the library's README, Debugging section) says a
debug-enabled cell logs the change.  The first conjunct shows the
trace log of every `set` call is empty; the rest evaluates the
documented failing input (`new State(0, { debug: true })` followed by
`set(5)`): the value is mutated but nothing is logged. -/
theorem C7_debug_trace_never_emitted :
    (∀ (m : Machine) (counter ci : Nat) (v : Lit) (force : Bool),
      (set m counter ci v force).traces = []) ∧
    (set (Machine.mk [{ value := .num 0, debug := true }] [body0]) 0 0 (.num 5) false).traces
      = [] ∧
    ((set (Machine.mk [{ value := .num 0, debug := true }] [body0]) 0 0 (.num 5)
        false).m.cells.get? 0).map (fun c => c.value) = some (.num 5) := by
  refine ⟨?_, rfl, rfl⟩
  intro m counter ci v force
  cases h : m.cells[ci]? with
  | none => simp [set, h]
  | some c =>
    simp only [set, List.get?_eq_getElem?, h]
    split <;> rfl

/-- C1: a `set(newValue, force)` call on a cell found in the store
notifies exactly when `force` is true or the comparator rejects the
pair: in that case the result is, literally, the result of running
`notifyElements` on the machine whose stored value has already been
replaced (value replacement first, notification synchronously inside
the same call); otherwise the machine is returned untouched with an
empty rebuild log (no watcher's rebuild is invoked).  The last
conjunct instantiates the first at `force = true`: a forced set
notifies regardless of the comparator's verdict. -/
theorem C1_set_change_gate (m : Machine) (counter ci : Nat) (c : State) (v : Lit)
    (force : Bool) (h : m.cells.get? ci = some c) :
    ((force = true ∨ c.compare c.value v = false) →
      set m counter ci v force =
        (let res := notifyElements
            { m with cells := updCell m.cells ci (fun c0 => { c0 with value := v }) }
            counter ci
         ⟨res.m, res.counter, res.rebuilt, res.err, []⟩)) ∧
    ((force = false ∧ c.compare c.value v = true) →
      set m counter ci v force = ⟨m, counter, [], none, []⟩) ∧
    (set m counter ci v true =
      (let res := notifyElements
          { m with cells := updCell m.cells ci (fun c0 => { c0 with value := v }) }
          counter ci
       ⟨res.m, res.counter, res.rebuilt, res.err, []⟩)) := by
  refine ⟨?_, ?_, ?_⟩
  · rintro (hf | hcmp)
    · subst hf
      simp only [set]
      rw [h]
      simp
    · simp only [set]
      rw [h]
      simp [hcmp]
  · rintro ⟨hf, hcmp⟩
    subst hf
    simp only [set]
    rw [h]
    simp [hcmp]
  · simp only [set]
    rw [h]
    simp

/-- A one-cell machine used to exercise the `set` gate. -/
def c1m : Machine := { cells := [{ value := .num 0 }], nodes := [body0] }

/-- C1 witness: the gate at a concrete cell — a changing set notifies
and a no-change unforced set returns the machine untouched. -/
theorem C1_set_change_gate_witness :
    c1m.cells.get? 0 = some { value := Lit.num 0 } ∧
    set c1m 0 0 (.num 5) false =
      (let res := notifyElements
          { c1m with cells := updCell c1m.cells 0 (fun c0 => { c0 with value := Lit.num 5 }) }
          0 0
       ⟨res.m, res.counter, res.rebuilt, res.err, []⟩) ∧
    set c1m 0 0 (.num 0) false = ⟨c1m, 0, [], none, []⟩ :=
  ⟨rfl,
   (C1_set_change_gate c1m 0 0 { value := Lit.num 0 } (.num 5) false rfl).1 (Or.inr rfl),
   (C1_set_change_gate c1m 0 0 { value := Lit.num 0 } (.num 0) false rfl).2.1 ⟨rfl, rfl⟩⟩

mutual
/-- A static-generator element call only appends to the accumulator:
its output is the fresh-accumulator output prefixed by the old
accumulator. -/
theorem stInstr_accum (acc : String) (i : Instr) :
    Static.stInstr acc i = acc ++ Static.stInstr "" i := by
  match i with
  | .textI v =>
    simp only [Static.stInstr]
    rw [String.empty_append]
  | .elemI tag props content =>
    match content with
    | none =>
      simp only [Static.stInstr]
      by_cases hsc : tag ∈ Static.selfClosingTags <;>
        simp [hsc, String.empty_append, String.append_assoc]
    | some (.lit v) =>
      simp only [Static.stInstr]
      by_cases hsc : tag ∈ Static.selfClosingTags <;>
        by_cases hh : htmlFlag props = true <;>
          simp [hsc, hh, String.empty_append, String.append_assoc]
    | some (.fn body) =>
      simp only [Static.stInstr]
      rw [stProg_accum (acc ++ "<" ++ tag ++ Static.stAttrs props ++ ">") body,
          stProg_accum ("" ++ "<" ++ tag ++ Static.stAttrs props ++ ">") body]
      by_cases hsc : tag ∈ Static.selfClosingTags <;>
        simp [hsc, String.empty_append, String.append_assoc]

/-- A static-generator body only appends to the accumulator. -/
theorem stProg_accum (acc : String) (p : List Instr) :
    Static.stProg acc p = acc ++ Static.stProg "" p := by
  match p with
  | [] =>
    simp only [Static.stProg]
    rw [String.append_empty]
  | i :: rest =>
    simp only [Static.stProg]
    rw [stProg_accum (Static.stInstr acc i) rest, stInstr_accum acc i,
        stProg_accum (Static.stInstr "" i) rest, String.append_assoc]
end

/-- C8: the static generator is pure and safe.  First conjunct: the
only state is the `html` accumulator, and running a builder against
any accumulator produces exactly that accumulator followed by the
fresh-run output — so a second `createStatic` call (which starts from
a fresh empty accumulator by construction) yields the byte-identical
string, with no state carried across calls.  Second conjunct: a
function-valued prop under any event-name key contributes nothing to
the attribute string.  Remaining conjuncts: literal `<` escapes to
`&lt;`, text content not flagged `html:true` is escaped in the output,
and an element carrying an event handler renders without any handler
artifact. -/
theorem C8_static_generator_pure :
    (∀ (acc : String) (p : List Instr),
      Static.stProg acc p = acc ++ Static.createStatic p) ∧
    ((events.map (fun k => Static.attrPiece (k, PropVal.func))).all
      (fun s => s == "") = true) ∧
    (Static.escapeHtml "<" = "&lt;") ∧
    (Static.createStatic [.elemI "p" [] (some (.lit (.str "<")))] = "<p>&lt;</p>") ∧
    (Static.createStatic [.elemI "button" [("click", PropVal.func)]
        (some (.lit (.str "Go")))] = "<button>Go</button>") :=
  ⟨fun acc p => stProg_accum acc p, rfl, rfl, rfl, rfl⟩

/-- The two-element concatenation variant of `List.get?_concat_length`. -/
theorem get?_append_pair {α : Type} (l : List α) (a b : α) :
    (l ++ [a, b]).get? l.length = some a := by
  rw [List.get?_append_right (Nat.le_refl _)]
  simp

/-- `elem` with a literal content appends the prepared element and one
content child (raw markup when `props.html === true`, otherwise a text
node). -/
theorem elem_lit_nodes (st : BState) (tag : String) (props : List (String × PropVal))
    (v : Lit) :
    (elem st tag props (some (.lit v))).m.nodes =
      st.m.nodes ++
        [{ (elemPrepare st.m.cells st.counter tag props (some (.lit v))).2.2 with
           parent := some st.cur },
         if htmlFlag props then
           { kind := .rawHtml, txt := v.toJSString, parent := some st.m.nodes.length }
         else
           { kind := .textNode, txt := v.toJSString, parent := some st.m.nodes.length }] := by
  simp only [elem]
  by_cases hh : htmlFlag props = true <;> simp [hh, elemAppend]

/-- The cell store and builder state used by the C9 falsy-literal
counterexample. -/
def c9FalsyBuild : BState :=
  runProg { m := { cells := [{ value := .num 0 }], nodes := [body0] },
            counter := 0, cur := 0, stack := [] }
    [.elemI "div" [("watch", PropVal.watchOne 0)] (some (.lit (.bool false)))]

/-- The notifying set issued against the falsy-literal watcher. -/
def c9FalsySet : SetRes := set c9FalsyBuild.m c9FalsyBuild.counter 0 (.num 1) false

/-- C9 counterexample: the claim says a watcher whose stored rebuild
value is a non-function literal is cleared and then throws on every
notifying set.  With the falsy literal `false` the stored value is
indeed kept in `_rsfRender`, but `if (renderFn)` skips the element
entirely: no children are cleared, nothing throws, and the notifying
set completes with an empty rebuild log. -/
theorem C9_literal_render_counterexample :
    ((c9FalsyBuild.m.nodes.get? 1).map (fun n => n.rsfRender) =
      some (some (Content.lit (.bool false)))) ∧
    c9FalsySet.err = none ∧
    c9FalsySet.rebuilt = [] ∧
    c9FalsySet.m.nodes = c9FalsyBuild.m.nodes :=
  ⟨rfl, rfl, rfl, rfl⟩

/-- The builder state used by the C9 truthy-literal scenario. -/
def c9TruthyBuild : BState :=
  runProg { m := { cells := [{ value := .num 0 }], nodes := [body0] },
            counter := 0, cur := 0, stack := [] }
    [.elemI "div" [("watch", PropVal.watchOne 0)] (some (.lit (.str "hello")))]

/-- The notifying set issued against the truthy-literal watcher. -/
def c9TruthySet : SetRes := set c9TruthyBuild.m c9TruthyBuild.counter 0 (.num 1) false

/-- C9 amended: any literal content of a watch-registered element is
stored verbatim as its rebuild procedure (first conjunct, for every
literal).  On a notifying set, a *truthy* stored literal makes the
pass clear the element's children and then throw on the non-callable
value, aborting the notification and leaving the element emptied
(children detached) yet with its own record intact; a falsy stored
literal is skipped entirely (see the counterexample). -/
theorem C9_literal_render_behavior :
    (∀ (st : BState) (tag : String) (ci : Nat) (v : Lit),
      ((runInstr st (.elemI tag [("watch", PropVal.watchOne ci)]
          (some (.lit v)))).m.nodes.get? st.m.nodes.length).map (fun n => n.rsfRender) =
        some (some (Content.lit v))) ∧
    c9TruthySet.err = some .notCallable ∧
    c9TruthySet.rebuilt = [1] ∧
    (c9TruthySet.m.nodes.get? 2).map (fun n => n.parent) = some none ∧
    c9TruthySet.m.nodes.get? 1 = c9TruthyBuild.m.nodes.get? 1 := by
  refine ⟨?_, rfl, rfl, rfl, rfl⟩
  intro st tag ci v
  simp only [runInstr]
  rw [elem_lit_nodes, get?_append_pair]
  rfl

/-- The C10 scenario: one document, two cells, two anchors. -/
def c10m : Machine :=
  { cells := [{ value := .num 0 }, { value := .num 0 }],
    nodes := [body0, appAnchor, app2Anchor] }

/-- First `rsf` invocation: a watcher of cell 0 under `#app`. -/
def c10r1 : Machine × Nat × Option String :=
  render c10m "#app" [.elemI "div" [("watch", PropVal.watchOne 0)] (some (.fn [.textI (.str "A")]))]

/-- Second `rsf` invocation: a watcher of cell 1 only, under `#app2`. -/
def c10r2 : Machine × Nat × Option String :=
  render c10r1.1 "#app2"
    [.elemI "span" [("watch", PropVal.watchOne 1)] (some (.fn [.textI (.str "B")]))]

/-- A set on cell 0 issued from the first invocation. -/
def c10set : SetRes := set c10r2.1 c10r1.2.1 0 (.num 7) false

/-- C10: each `rsf()` invocation restarts its local `stateIdCounter`
at zero, so the two cells — each first registered under a different
invocation — receive the *same* identity token `state-0`; the span
element, which declared a watch on cell 1 only, carries the marker
`state-0`, and a set on cell 0 then rebuilds both the div (node 3)
and the span (node 5). -/
theorem C10_identity_collision :
    ((c10r1.1.cells.get? 0).bind (fun c => c.stateId) = some "state-0") ∧
    ((c10r2.1.cells.get? 1).bind (fun c => c.stateId) = some "state-0") ∧
    ((c10r2.1.nodes.get? 5).map (fun n => (n.tag, getAttr n.attrs "data-rsf-watching")) =
      some ("span", some "state-0")) ∧
    c10set.rebuilt = [3, 5] ∧
    (c10set.m.nodes.get? 5).map (fun n => n.tag) = some "span" :=
  ⟨rfl, rfl, rfl, rfl, rfl⟩

/-! ## The notification frame and exactness lemmas (claim C2) -/

/-- Was node `n` a direct child of one of the rebuilt elements?  Such
nodes (and only such nodes, among the pre-existing ones) are detached
by a notification pass. -/
def detachedBy (rebuilt : List Nat) (n : Node) : Bool :=
  match n.parent with
  | some p => rebuilt.contains p
  | none => false

/-- Nothing is a child of an empty rebuild set. -/
theorem detachedBy_nil (n : Node) : detachedBy [] n = false := by
  cases h : n.parent <;> simp [detachedBy, h]

/-- Is a stored rebuild value a (non-callable) literal? -/
def isLitRender : Option Content → Bool
  | some (.lit _) => true
  | _ => false

/-- An index holding a value is within bounds. -/
theorem get?_some_lt {α : Type} {l : List α} {i : Nat} {a : α} (h : l.get? i = some a) :
    i < l.length := by
  by_contra hc
  push_neg at hc
  rw [List.get?_eq_none.2 hc] at h
  exact Option.noConfusion h

/-- Setting an occupied index stores the new value there. -/
theorem get?_set_self {α : Type} {l : List α} {i : Nat} {a : α} (b : α)
    (h : l.get? i = some a) : (l.set i b).get? i = some b := by
  have hlt := get?_some_lt h
  rw [List.get?_eq_getElem?, List.getElem?_set_self']
  simp [List.getElem?_eq_getElem hlt]

/-- How one rebuild step composes with the rest of the pass, at the
level of a single node's record: clearing element `e` and then
detaching by the rest's rebuild set equals detaching by the combined
rebuild set. -/
theorem detach_step (rebuilt : List Nat) (e : Nat) (n : Node) :
    (if detachedBy rebuilt (if n.parent == some e then { n with parent := none } else n) then
      { (if n.parent == some e then { n with parent := none } else n) with parent := none }
    else (if n.parent == some e then { n with parent := none } else n)) =
      (if detachedBy (e :: rebuilt) n then { n with parent := none } else n) := by
  cases hp : n.parent with
  | none => simp [detachedBy, hp]
  | some p =>
    by_cases hpe : p = e
    · subst hpe
      simp [detachedBy, hp, List.contains_cons]
    · simp [detachedBy, hp, List.contains_cons, hpe]

/-- The frame property of a notification pass: every node present
before the pass keeps its exact record, except that the direct
children of rebuilt elements end up detached (`parent := none`);
no pre-existing node is modified in any other way. -/
theorem notifyPass_frame (es : List Nat) :
    ∀ (m : Machine) (counter : Nat) (sid : String) (i : Nat) (n : Node),
      m.nodes.get? i = some n →
      (notifyPass m counter sid es).m.nodes.get? i =
        some (if detachedBy (notifyPass m counter sid es).rebuilt n then
                { n with parent := none } else n) := by
  induction es with
  | nil =>
    intro m counter sid i n h
    simpa [notifyPass, detachedBy_nil] using h
  | cons e rest ih =>
    intro m counter sid i n h
    simp only [notifyPass]
    cases he : m.nodes.get? e with
    | none => exact ih m counter sid i n h
    | some ne =>
      by_cases hw :
        ((splitComma ((getAttr ne.attrs "data-rsf-watching").getD "")).contains sid) = true
      · cases hr : ne.rsfRender with
        | none => simp only [hw, hr, if_true]; exact ih m counter sid i n h
        | some cont =>
          cases cont with
          | fn body =>
            simp only [hw, hr, if_true]
            have hi : i < m.nodes.length := get?_some_lt h
            have hclear : (clearChildren m.nodes e).get? i =
                some (if n.parent == some e then { n with parent := none } else n) := by
              rw [clearChildren_get?, h, Option.map_some']
            have hrun := runProg_get?_frame
              { m := { m with nodes := clearChildren m.nodes e }, counter := counter,
                cur := e, stack := [], parentEl := none } body i
              (by simpa [clearChildren_length] using hi)
            have hstep := ih
              (runProg { m := { m with nodes := clearChildren m.nodes e },
                         counter := counter, cur := e, stack := [], parentEl := none }
                 body).m
              (runProg { m := { m with nodes := clearChildren m.nodes e },
                         counter := counter, cur := e, stack := [], parentEl := none }
                 body).counter
              sid i _ (hrun.trans hclear)
            rw [hstep, detach_step]
          | lit v =>
            by_cases hv : v.truthy = true
            · simp only [hw, hr, hv, if_true]
              have hclear : (clearChildren m.nodes e).get? i =
                  some (if n.parent == some e then { n with parent := none } else n) := by
                rw [clearChildren_get?, h, Option.map_some']
              rw [hclear, ← detach_step [] e n]
              simp [detachedBy_nil]
            · simp only [hw, hr, if_true, hv]
              simp only [Bool.false_eq_true, if_false]
              exact ih m counter sid i n h
      · simp only [hw, if_false]
        exact ih m counter sid i n h

/-- The exactness property of a notification pass: when every visited
element's stored rebuild value is a function (or absent), the pass
completes without error and rebuilds exactly the visited elements
whose split watch-marker contains the cell identity and which hold a
stored rebuild function. -/
theorem notifyPass_rebuilt_exact (es : List Nat) :
    ∀ (m : Machine) (counter : Nat) (sid : String),
      (∀ e ∈ es, e < m.nodes.length) →
      (∀ e ∈ es, ∀ n, m.nodes.get? e = some n → isLitRender n.rsfRender = false) →
      (notifyPass m counter sid es).err = none ∧
      (notifyPass m counter sid es).rebuilt = es.filter (fun e =>
        match m.nodes.get? e with
        | some n =>
          (splitComma ((getAttr n.attrs "data-rsf-watching").getD "")).contains sid &&
            (match n.rsfRender with
             | some (.fn _) => true
             | _ => false)
        | none => false) := by
  induction es with
  | nil => intro m counter sid _ _; exact ⟨rfl, rfl⟩
  | cons e rest ih =>
    intro m counter sid hlen hwf
    have hel : e < m.nodes.length := hlen e (List.mem_cons_self e rest)
    cases he : m.nodes.get? e with
    | none =>
      rw [List.get?_eq_none] at he
      omega
    | some ne =>
      simp only [notifyPass, he]
      by_cases hw :
        ((splitComma ((getAttr ne.attrs "data-rsf-watching").getD "")).contains sid) = true
      · cases hr : ne.rsfRender with
        | none =>
          simp only [hw, hr, if_true]
          have hres := ih m counter sid
            (fun x hx => hlen x (List.mem_cons_of_mem e hx))
            (fun x hx => hwf x (List.mem_cons_of_mem e hx))
          refine ⟨hres.1, ?_⟩
          have he' : m.nodes[e]? = some ne := by rw [← List.get?_eq_getElem?]; exact he
          rw [hres.2, List.filter_cons]
          simp [he, he', hr]
        | some cont =>
          cases cont with
          | lit v =>
            have := hwf e (List.mem_cons_self e rest) ne he
            rw [hr] at this
            simp [isLitRender] at this
          | fn body =>
            simp only [hw, hr, if_true]
            have hnodes := runProg_nodes_extend
              { m := { m with nodes := clearChildren m.nodes e }, counter := counter,
                cur := e, stack := [], parentEl := none } body
            have hlen2 : ∀ x ∈ rest, x <
                (runProg { m := { m with nodes := clearChildren m.nodes e },
                           counter := counter, cur := e, stack := [], parentEl := none }
                   body).m.nodes.length := by
              intro x hx
              have := hlen x (List.mem_cons_of_mem e hx)
              have hle := runProg_length_le
                { m := { m with nodes := clearChildren m.nodes e }, counter := counter,
                  cur := e, stack := [], parentEl := none } body
              simp only [clearChildren_length] at hle
              omega
            have htrans : ∀ x ∈ rest, ∀ nx, m.nodes.get? x = some nx →
                (runProg { m := { m with nodes := clearChildren m.nodes e },
                           counter := counter, cur := e, stack := [], parentEl := none }
                   body).m.nodes.get? x =
                  some (if nx.parent == some e then { nx with parent := none } else nx) := by
              intro x hx nx hnx
              have hxlt := hlen x (List.mem_cons_of_mem e hx)
              have hclear : (clearChildren m.nodes e).get? x =
                  some (if nx.parent == some e then { nx with parent := none } else nx) := by
                rw [clearChildren_get?, hnx, Option.map_some']
              have hrun := runProg_get?_frame
                { m := { m with nodes := clearChildren m.nodes e }, counter := counter,
                  cur := e, stack := [], parentEl := none } body x
                (by simpa [clearChildren_length] using hxlt)
              exact hrun.trans hclear
            have hwf2 : ∀ x ∈ rest, ∀ nx,
                (runProg { m := { m with nodes := clearChildren m.nodes e },
                           counter := counter, cur := e, stack := [], parentEl := none }
                   body).m.nodes.get? x = some nx → isLitRender nx.rsfRender = false := by
              intro x hx nx hnx
              have hxlt := hlen x (List.mem_cons_of_mem e hx)
              obtain ⟨nold, hnold⟩ := Option.isSome_iff_exists.1
                (by rw [List.get?_eq_getElem?, List.getElem?_eq_getElem hxlt]; rfl :
                  (m.nodes.get? x).isSome = true)
              have := htrans x hx nold hnold
              rw [this] at hnx
              have hwfx := hwf x (List.mem_cons_of_mem e hx) nold hnold
              cases hb : nold.parent == some e <;> rw [hb] at hnx <;>
                simp only [if_true, if_false, Option.some.injEq] at hnx <;>
                  subst hnx <;> simpa using hwfx
            have hres := ih
              (runProg { m := { m with nodes := clearChildren m.nodes e },
                         counter := counter, cur := e, stack := [], parentEl := none }
                 body).m
              (runProg { m := { m with nodes := clearChildren m.nodes e },
                         counter := counter, cur := e, stack := [], parentEl := none }
                 body).counter
              sid hlen2 hwf2
            refine ⟨hres.1, ?_⟩
            rw [hres.2, List.filter_cons]
            have hfc : ∀ x ∈ rest,
                (match (runProg { m := { m with nodes := clearChildren m.nodes e },
                                  counter := counter, cur := e, stack := [],
                                  parentEl := none } body).m.nodes.get? x with
                 | some nx =>
                   (splitComma ((getAttr nx.attrs "data-rsf-watching").getD "")).contains sid
                     && (match nx.rsfRender with
                         | some (.fn _) => true
                         | _ => false)
                 | none => false) =
                (match m.nodes.get? x with
                 | some nx =>
                   (splitComma ((getAttr nx.attrs "data-rsf-watching").getD "")).contains sid
                     && (match nx.rsfRender with
                         | some (.fn _) => true
                         | _ => false)
                 | none => false) := by
              intro x hx
              have hxlt := hlen x (List.mem_cons_of_mem e hx)
              obtain ⟨nold, hnold⟩ := Option.isSome_iff_exists.1
                (by rw [List.get?_eq_getElem?, List.getElem?_eq_getElem hxlt]; rfl :
                  (m.nodes.get? x).isSome = true)
              rw [htrans x hx nold hnold, hnold]
              cases hb : nold.parent == some e <;> simp
            have he' : m.nodes[e]? = some ne := by rw [← List.get?_eq_getElem?]; exact he
            have hw' : sid ∈ splitComma ((getAttr ne.attrs "data-rsf-watching").getD "") := by
              simpa using hw
            rw [List.filter_congr hfc]
            simp [he, he', hw, hw', hr]
      · simp only [hw, Bool.false_eq_true, if_false]
        have hres := ih m counter sid
          (fun x hx => hlen x (List.mem_cons_of_mem e hx))
          (fun x hx => hwf x (List.mem_cons_of_mem e hx))
        refine ⟨hres.1, ?_⟩
        have he' : m.nodes[e]? = some ne := by rw [← List.get?_eq_getElem?]; exact he
        have hw2 : ¬(sid ∈ splitComma ((getAttr ne.attrs "data-rsf-watching").getD "")) := by
          simpa using hw
        rw [hres.2, List.filter_cons]
        simp [he, he', hw, hw2]

/-- C2: for a notifying `set` call on a cell with identity `sid`, in a
document whose stored rebuild values are functions (the shape produced
by registering watchers with a content function): the notification
completes without error; the rebuilt elements are exactly the
in-document marker-bearing elements whose declared watch-identity list
contains `sid` and which hold a stored rebuild function; and every
pre-existing node keeps its exact record — tag, attributes (including
the `data-rsf-watching` marker), and stored rebuild procedure — except
that direct children of rebuilt elements are detached (the rebuilt
element loses only its children).  In particular an element watching a
disjoint identity set, and every node of its subtree, is untouched. -/
theorem C2_scoped_rebuild (m : Machine) (counter ci : Nat) (c : State) (sid : String)
    (v : Lit) (force : Bool)
    (hc : m.cells.get? ci = some c) (hsid : c.stateId = some sid)
    (hgate : force = true ∨ c.compare c.value v = false)
    (hwf : ∀ n ∈ m.nodes, isLitRender n.rsfRender = false) :
    (set m counter ci v force).err = none ∧
    (set m counter ci v force).rebuilt = (snapshot m).filter (fun e =>
      match m.nodes.get? e with
      | some n =>
        (splitComma ((getAttr n.attrs "data-rsf-watching").getD "")).contains sid &&
          (match n.rsfRender with
           | some (.fn _) => true
           | _ => false)
      | none => false) ∧
    (∀ i n, m.nodes.get? i = some n →
      (set m counter ci v force).m.nodes.get? i =
        some (if detachedBy (set m counter ci v force).rebuilt n then
                { n with parent := none } else n)) := by
  have hc' : m.cells[ci]? = some c := by rw [← List.get?_eq_getElem?]; exact hc
  have hcells : updCell m.cells ci (fun c0 => { c0 with value := v }) =
      m.cells.set ci { c with value := v } := by
    simp [updCell, hc, hc']
  have hm1 : ({ m with cells := updCell m.cells ci (fun c0 => { c0 with value := v }) }
      : Machine).cells.get? ci = some { c with value := v } := by
    show (updCell m.cells ci (fun c0 => { c0 with value := v })).get? ci = _
    rw [hcells]
    exact get?_set_self _ hc
  have hbind : (({ m with cells := updCell m.cells ci (fun c0 => { c0 with value := v }) }
      : Machine).cells.get? ci).bind (fun c0 => c0.stateId) = some sid := by
    rw [hm1]
    simpa using hsid
  have hcond : (!(c.compare c.value v) || force) = true := by
    rcases hgate with hf | hcmp
    · subst hf; simp
    · simp [hcmp]
  have hset : set m counter ci v force =
      ⟨(notifyPass { m with cells := updCell m.cells ci (fun c0 => { c0 with value := v }) }
          counter sid (snapshot m)).m,
       (notifyPass { m with cells := updCell m.cells ci (fun c0 => { c0 with value := v }) }
          counter sid (snapshot m)).counter,
       (notifyPass { m with cells := updCell m.cells ci (fun c0 => { c0 with value := v }) }
          counter sid (snapshot m)).rebuilt,
       (notifyPass { m with cells := updCell m.cells ci (fun c0 => { c0 with value := v }) }
          counter sid (snapshot m)).err, []⟩ := by
    simp only [set]
    rw [hc]
    simp only [hcond, if_true, notifyElements]
    rw [hbind]
    rfl
  have hexact := notifyPass_rebuilt_exact (snapshot m)
    { m with cells := updCell m.cells ci (fun c0 => { c0 with value := v }) } counter sid
    (by
      intro e he
      have hrange : e ∈ List.range m.nodes.length := (List.mem_filter.1 he).1
      exact List.mem_range.1 hrange)
    (fun e _ n hn => hwf n (List.get?_mem hn))
  have hframe := notifyPass_frame (snapshot m)
    { m with cells := updCell m.cells ci (fun c0 => { c0 with value := v }) } counter sid
  refine ⟨?_, ?_, ?_⟩
  · rw [hset]; exact hexact.1
  · rw [hset]; exact hexact.2
  · intro i n h
    rw [hset]
    exact hframe i n h

/-- The watcher of cell 0 in the C2 witness document. -/
def c2divA : Node :=
  { kind := .element, tag := "div", attrs := [("data-rsf-watching", "state-0")],
    parent := some 0, rsfRender := some (.fn [.textI (.str "A")]) }

/-- The old text child of the cell-0 watcher. -/
def c2textA : Node := { kind := .textNode, txt := "old", parent := some 1 }

/-- A watcher of the disjoint identity `state-1`, carrying a marker
attribute whose survival is checked. -/
def c2divB : Node :=
  { kind := .element, tag := "div",
    attrs := [("data-rsf-watching", "state-1"), ("data-marker", "keep")],
    parent := some 0, rsfRender := some (.fn [.textI (.str "B")]) }

/-- The text child of the disjoint watcher. -/
def c2textB : Node := { kind := .textNode, txt := "B", parent := some 3 }

/-- The C2 witness document: two cells with distinct identities and
one watcher subtree for each. -/
def c2m : Machine :=
  { cells := [{ value := .num 0, stateId := some "state-0" },
              { value := .num 0, stateId := some "state-1" }],
    nodes := [body0, c2divA, c2textA, c2divB, c2textB] }

/-- C2 witness: a notifying set on cell 0 rebuilds exactly its watcher
(node 1), preserving that watcher's record and detaching its old text
child, while the disjoint watcher (node 3) and its subtree (node 4)
are untouched, marker attribute included. -/
theorem C2_scoped_rebuild_witness :
    c2m.cells.get? 0 = some { value := Lit.num 0, stateId := some "state-0" } ∧
    (∀ n ∈ c2m.nodes, isLitRender n.rsfRender = false) ∧
    (set c2m 0 0 (.num 1) false).err = none ∧
    (set c2m 0 0 (.num 1) false).rebuilt = [1] ∧
    (set c2m 0 0 (.num 1) false).m.nodes.get? 3 = some c2divB ∧
    (set c2m 0 0 (.num 1) false).m.nodes.get? 4 = some c2textB ∧
    (set c2m 0 0 (.num 1) false).m.nodes.get? 1 = some c2divA ∧
    ((set c2m 0 0 (.num 1) false).m.nodes.get? 2).map (fun n => n.parent) = some none := by
  have h := C2_scoped_rebuild c2m 0 0 { value := .num 0, stateId := some "state-0" }
    "state-0" (.num 1) false rfl rfl (Or.inr rfl) (by decide)
  exact ⟨rfl, by decide, h.1, h.2.1.trans (by rfl),
    (h.2.2 3 c2divB rfl).trans (by rfl), rfl,
    (h.2.2 1 c2divA rfl).trans (by rfl), rfl⟩

end RSF
